import Mathlib

/-!
Verification of the rolling audio capture and snapshot subsystem of the
audiobook-explainer repository.

The embedded code comes from the iOS-compatible audio service
(`src/unnamed/part_005`, referred to below as the audio service) and from
`src/src/services/audioService.js` (the WAV fallback encoder).  Chunk
payloads (JavaScript `Blob` references) are modelled as natural-number
identifiers: the service only ever compares blobs by reference (`!==`),
which corresponds to identifier equality, and distinct `dataavailable`
events always carry distinct blob objects.  Timestamps (`Date.now()`
values) are natural numbers in milliseconds.
-/

/-- `WINDOW_MS` — the ten-second rolling window used by `manageBuffer`
(the literal `10000` at part_005 line 150). -/
def WINDOW_MS : Nat := 10000

/-- A timestamped chunk as pushed onto `lastTenSecondsBuffer`
(part_005 lines 345-349): `{ timestamp: Date.now(), data: event.data }`.
`data` is the blob identifier. -/
structure BChunk where
  timestamp : Nat
  data : Nat
deriving DecidableEq

/-- `manageBuffer` (part_005 lines 144-163): drop chunks whose timestamp is
older than ten seconds before `now` (`chunk.timestamp >= tenSecondsAgo`,
where `tenSecondsAgo = currentTime - 10000`; natural subtraction matches
the JavaScript comparison because timestamps are nonnegative), then cap
the length at `maxChunks` (`maxChunksFor10Seconds` in the source) by
splicing excess chunks off the front. -/
def manageBuffer (maxChunks : Nat) (now : Nat) (buf : List BChunk) : List BChunk :=
  let filtered := buf.filter (fun c => now - WINDOW_MS ≤ c.timestamp)
  if maxChunks < filtered.length then
    filtered.drop (filtered.length - maxChunks)
  else
    filtered

/-- One `ondataavailable` append (part_005 lines 333-352): push the chunk at
the tail of `lastTenSecondsBuffer`, then run `manageBuffer` with the
current clock, which at that point equals the pushed chunk's timestamp. -/
def appendChunk (maxChunks : Nat) (buf : List BChunk) (c : BChunk) : List BChunk :=
  manageBuffer maxChunks c.timestamp (buf ++ [c])

/-- C1.  Rolling-buffer eviction invariant: after the eviction pass that
follows an append (timestamps are nondecreasing, as produced by the
monotone wall clock), every retained chunk is at most `WINDOW_MS` older
than any other retained chunk — in particular than the newest one — and
the buffer length is bounded by the count bound. -/
theorem rolling_eviction_invariant (maxChunks : Nat) (buf : List BChunk) (c : BChunk)
    (hmono : ∀ x ∈ buf, x.timestamp ≤ c.timestamp) :
    (∀ x ∈ appendChunk maxChunks buf c, ∀ y ∈ appendChunk maxChunks buf c,
        y.timestamp - x.timestamp ≤ WINDOW_MS)
    ∧ (appendChunk maxChunks buf c).length ≤ maxChunks := by
  unfold appendChunk manageBuffer
  set filtered := (buf ++ [c]).filter (fun x => decide (c.timestamp - WINDOW_MS ≤ x.timestamp)) with hf
  have hmem : ∀ x ∈ filtered, c.timestamp - WINDOW_MS ≤ x.timestamp := by
    intro x hx
    have := List.of_mem_filter hx
    exact of_decide_eq_true this
  have hub : ∀ x ∈ filtered, x.timestamp ≤ c.timestamp := by
    intro x hx
    have hx' : x ∈ buf ++ [c] := List.mem_of_mem_filter hx
    rcases List.mem_append.mp hx' with h | h
    · exact hmono x h
    · simp only [List.mem_singleton] at h
      simp [h]
  constructor
  · intro x hx y hy
    simp only [] at hx hy
    split at hx
    · rename_i hlen
      rw [if_pos hlen] at hy
      have hxf : x ∈ filtered := List.drop_subset _ _ hx
      have hyf : y ∈ filtered := List.drop_subset _ _ hy
      have h1 := hmem x hxf
      have h2 := hub y hyf
      unfold WINDOW_MS at h1 ⊢
      omega
    · rename_i hlen
      rw [if_neg hlen] at hy
      have h1 := hmem x hx
      have h2 := hub y hy
      unfold WINDOW_MS at h1 ⊢
      omega
  · simp only []
    split
    · rename_i hlen
      rw [List.length_drop]
      omega
    · rename_i hlen
      omega

/-- Witness for C1 at a concrete input: buffer `[⟨0,0⟩]`, appended chunk
`⟨1000,1⟩`, count bound 10. -/
theorem rolling_eviction_invariant_witness :
    (∀ x ∈ appendChunk 10 [⟨0,0⟩] ⟨1000,1⟩, ∀ y ∈ appendChunk 10 [⟨0,0⟩] ⟨1000,1⟩,
        y.timestamp - x.timestamp ≤ WINDOW_MS)
    ∧ (appendChunk 10 [⟨0,0⟩] ⟨1000,1⟩).length ≤ 10 :=
  rolling_eviction_invariant 10 [⟨0,0⟩] ⟨1000,1⟩ (by decide)

/-- C6.  Scenario A: appending the twelve one-second chunks timestamped
0, 1000, …, 11000 ms (desktop count bound `maxChunksFor10Seconds = 10`,
since desktop chunks last 1000 ms) leaves exactly the ten chunks
timestamped 2000 … 11000; the chunks timestamped 0 and 1000 have been
evicted. -/
theorem eviction_scenario_a :
    ((List.range 12).map (fun i => BChunk.mk (1000 * i) i)).foldl (appendChunk 10) []
      = (List.range 10).map (fun i => BChunk.mk (1000 * (i + 2)) (i + 2)) := by
  decide

/-- `recordedChunks` growth bound (part_005 lines 354-359): after pushing a
chunk, if the array length exceeds 1000 the first `length - 500` entries
are spliced off, keeping only the last 500. -/
def recordedAppend {α : Type} (buf : List α) (c : α) : List α :=
  let b := buf ++ [c]
  if 1000 < b.length then b.drop (b.length - 500) else b

/-- The module-level recording state consulted by `stopRecording`
(part_005): `lastTenSecondsBuffer`, `recordedChunks`, whether
`mediaRecorder.state === 'inactive'`, `isRecordingActive` and
`isResetting`. -/
structure SessionState where
  live : List BChunk
  allChunks : List BChunk
  recorderInactive : Bool
  isRecordingActive : Bool
  isResetting : Bool
deriving DecidableEq

/-- The three synchronous rejection reasons of `stopRecording`
(part_005 lines 395-422): `'Media recorder not active'`,
`'Reset operation in progress'` (the busy condition) and
`'No audio chunks in buffer'` (the empty-buffer condition). -/
inductive StopError
  | notActive
  | busy
  | emptyBuffer
deriving DecidableEq

/-- The value copies bound by `stopRecording` before the recorder is
stopped (part_005 lines 412-413): `bufferCopy = [...lastTenSecondsBuffer]`
and `chunksCopy = [...recordedChunks]`. -/
structure SnapPending where
  copy : List BChunk
  chunksCopy : List BChunk
deriving DecidableEq

/-- Result of the synchronous phase of `stopRecording`: either one of the
fail-fast rejections, or a pending snapshot holding the two copies. -/
inductive StopReqResult
  | rejected (e : StopError)
  | pending (p : SnapPending)
deriving DecidableEq

/-- The synchronous phase of `stopRecording` (part_005 lines 386-434 and
524-526), as one atomic step of the cooperative scheduler.  Guards in
source order: the not-active check (line 395) precedes the `isResetting`
check (line 402); then the copies are taken and the empty-buffer check
runs (line 416, with `isResetting` restored to `false` there, leaving the
state unchanged on that rejection); otherwise `isRecordingActive` is
cleared (line 434) and `mediaRecorder.stop()` is issued (line 526), which
sets the recorder state to inactive within the same step. -/
def stopRequest (s : SessionState) : StopReqResult × SessionState :=
  if s.recorderInactive || !s.isRecordingActive then
    (.rejected .notActive, s)
  else if s.isResetting then
    (.rejected .busy, s)
  else if s.live.isEmpty then
    (.rejected .emptyBuffer, s)
  else
    (.pending ⟨s.live, s.allChunks⟩,
     { s with isResetting := true, isRecordingActive := false, recorderInactive := true })

/-- The coordinator state while a snapshot is in flight: the mutable
module-level session state plus the pending value copies (which are plain
local constants in the source and can never alias the live arrays). -/
structure CoordState where
  sess : SessionState
  pending : Option SnapPending
deriving DecidableEq

/-- An `ondataavailable` append occurring while a snapshot is in flight:
it pushes to `lastTenSecondsBuffer` (then runs `manageBuffer`) and to
`recordedChunks` (part_005 lines 333-359); it touches nothing else. -/
def coordAppend (maxChunks : Nat) (st : CoordState) (c : BChunk) : CoordState :=
  { st with sess := { st.sess with
      live := appendChunk maxChunks st.sess.live c,
      allChunks := recordedAppend st.sess.allChunks c } }

/-- `stopTimeoutMs` — the bounded stop timeout (part_005 line 516):
3000 ms on iOS (the memory-constrained platform), 2000 ms otherwise. -/
def stopTimeoutMs (isIOS : Bool) : Nat := if isIOS then 3000 else 2000

/-- Which of the two racing events invoked `handleStop`: the recorder's
`stop` event (part_005 line 518) or the timeout (line 513). -/
inductive StopTrigger
  | ackEvent
  | timeoutFired
deriving DecidableEq

/-- Outcome of waiting for the stop acknowledgement: when `handleStop` was
invoked, by which trigger, and which chunk list it processes. -/
structure StopWaitResult where
  firedAt : Nat
  trigger : StopTrigger
  processedBuffer : List BChunk
deriving DecidableEq

/-- The race between the recorder's `stop` event and the bounded timeout
(part_005 lines 512-522).  `ackTime` is the arrival time of the stop
acknowledgement (`none` when it is withheld forever).  Whichever side
fires first invokes `handleStop`, which closes over `bufferCopy` — the
copy taken at request time — so that is always the processed list. -/
def awaitStop (isIOS : Bool) (ackTime : Option Nat) (p : SnapPending) : StopWaitResult :=
  match ackTime with
  | some t =>
      if t < stopTimeoutMs isIOS then ⟨t, .ackEvent, p.copy⟩
      else ⟨stopTimeoutMs isIOS, .timeoutFired, p.copy⟩
  | none => ⟨stopTimeoutMs isIOS, .timeoutFired, p.copy⟩

/-- C2.  Snapshot content is fixed at request time: the pending copy
equals the live window exactly as it was when the request was made (the
copy is taken before the asynchronous stop is issued), no sequence of
later appends changes the pending copy, and the buffer handed to
processing — however and whenever the stop wait ends — is exactly that
request-time window. -/
theorem snapshot_fixed_at_request (maxChunks : Nat) (isIOS : Bool)
    (ackTime : Option Nat) (s : SessionState) (p : SnapPending) (evs : List BChunk)
    (hp : (stopRequest s).1 = .pending p) :
    p.copy = s.live ∧ p.chunksCopy = s.allChunks ∧
    (evs.foldl (coordAppend maxChunks) ⟨(stopRequest s).2, some p⟩).pending = some p ∧
    (awaitStop isIOS ackTime p).processedBuffer = s.live := by
  have hcopy : p.copy = s.live ∧ p.chunksCopy = s.allChunks := by
    unfold stopRequest at hp
    split at hp
    · simp at hp
    · split at hp
      · simp at hp
      · split at hp
        · simp at hp
        · simp only [Prod.fst] at hp
          cases hp
          exact ⟨rfl, rfl⟩
  have hfold : ∀ (l : List BChunk) (st : CoordState),
      (l.foldl (coordAppend maxChunks) st).pending = st.pending := by
    intro l
    induction l with
    | nil => intro st; rfl
    | cons a l ih =>
        intro st
        rw [List.foldl_cons, ih]
        rfl
  refine ⟨hcopy.1, hcopy.2, hfold evs _, ?_⟩
  cases ackTime with
  | none => exact hcopy.1
  | some t =>
      show (if t < stopTimeoutMs isIOS then
              StopWaitResult.mk t .ackEvent p.copy
            else
              StopWaitResult.mk (stopTimeoutMs isIOS) .timeoutFired p.copy).processedBuffer
          = s.live
      by_cases h : t < stopTimeoutMs isIOS
      · rw [if_pos h]
        exact hcopy.1
      · rw [if_neg h]
        exact hcopy.1

/-- Witness for C2 at a concrete input: a one-chunk window, one later
append, acknowledgement withheld. -/
theorem snapshot_fixed_at_request_witness :
    (SnapPending.mk [⟨0,0⟩] [⟨0,0⟩]).copy
        = (SessionState.mk [⟨0,0⟩] [⟨0,0⟩] false true false).live ∧
    (SnapPending.mk [⟨0,0⟩] [⟨0,0⟩]).chunksCopy
        = (SessionState.mk [⟨0,0⟩] [⟨0,0⟩] false true false).allChunks ∧
    (([⟨1000,1⟩] : List BChunk).foldl (coordAppend 10)
        ⟨(stopRequest (SessionState.mk [⟨0,0⟩] [⟨0,0⟩] false true false)).2,
         some (SnapPending.mk [⟨0,0⟩] [⟨0,0⟩])⟩).pending
        = some (SnapPending.mk [⟨0,0⟩] [⟨0,0⟩]) ∧
    (awaitStop false none (SnapPending.mk [⟨0,0⟩] [⟨0,0⟩])).processedBuffer
        = (SessionState.mk [⟨0,0⟩] [⟨0,0⟩] false true false).live :=
  snapshot_fixed_at_request 10 false none
    (SessionState.mk [⟨0,0⟩] [⟨0,0⟩] false true false)
    (SnapPending.mk [⟨0,0⟩] [⟨0,0⟩]) [⟨1000,1⟩] (by decide)

/-- C3 counterexample.  Starting from an active, non-resetting session
with a one-chunk window, a first `stopRecording` goes pending; a second
request issued while the first is in flight is rejected — but with the
`'Media recorder not active'` error, not the `'Reset operation in
progress'` (busy) error: the first request already cleared
`isRecordingActive` and stopped the recorder in its synchronous phase, so
the not-active guard (part_005 line 395) fires before the `isResetting`
guard (line 402) is ever reached. -/
theorem snapshot_busy_counterexample :
    (stopRequest (stopRequest (SessionState.mk [⟨0,0⟩] [⟨0,0⟩] false true false)).2).1
      = .rejected .notActive ∧
    ¬ ((stopRequest (stopRequest (SessionState.mk [⟨0,0⟩] [⟨0,0⟩] false true false)).2).1
      = .rejected .busy) := by
  decide

/-- C3 as amended.  Snapshot mutual exclusion: from an active,
non-resetting session with a nonempty window, the first `stopRecording`
request goes pending; a second request issued while the first is in
flight fails fast (with the `'Media recorder not active'` rejection,
since the first request already stopped the recorder), leaves the state
untouched, and can never itself go pending — so at most one snapshot is
in flight and only the first of the two calls can resolve with an
artifact. -/
theorem snapshot_mutual_exclusion (s : SessionState)
    (h1 : s.recorderInactive = false) (h2 : s.isRecordingActive = true)
    (h3 : s.isResetting = false) (h4 : s.live ≠ []) :
    (stopRequest s).1 = .pending ⟨s.live, s.allChunks⟩ ∧
    (stopRequest (stopRequest s).2).1 = .rejected .notActive ∧
    (stopRequest (stopRequest s).2).2 = (stopRequest s).2 ∧
    (∀ p, (stopRequest (stopRequest s).2).1 ≠ .pending p) := by
  have hempty : s.live.isEmpty = false := by
    cases hl : s.live with
    | nil => exact absurd hl h4
    | cons a l => rfl
  have hfirst : stopRequest s
      = (.pending ⟨s.live, s.allChunks⟩,
         { s with isResetting := true, isRecordingActive := false, recorderInactive := true }) := by
    unfold stopRequest
    rw [h1, h2, h3, hempty]
    rfl
  have hsecond : stopRequest
        ({ s with isResetting := true, isRecordingActive := false, recorderInactive := true })
      = (.rejected .notActive,
         { s with isResetting := true, isRecordingActive := false, recorderInactive := true }) := by
    unfold stopRequest
    rfl
  rw [hfirst]
  simp only [hsecond]
  refine ⟨trivial, trivial, trivial, ?_⟩
  intro p hp
  exact StopReqResult.noConfusion hp

/-- Witness for the amended C3 at a concrete input. -/
theorem snapshot_mutual_exclusion_witness :
    (stopRequest (SessionState.mk [⟨0,0⟩] [⟨0,0⟩] false true false)).1
      = .pending ⟨[⟨0,0⟩], [⟨0,0⟩]⟩ ∧
    (stopRequest (stopRequest (SessionState.mk [⟨0,0⟩] [⟨0,0⟩] false true false)).2).1
      = .rejected .notActive ∧
    (stopRequest (stopRequest (SessionState.mk [⟨0,0⟩] [⟨0,0⟩] false true false)).2).2
      = (stopRequest (SessionState.mk [⟨0,0⟩] [⟨0,0⟩] false true false)).2 ∧
    (∀ p, (stopRequest (stopRequest (SessionState.mk [⟨0,0⟩] [⟨0,0⟩] false true false)).2).1
      ≠ .pending p) :=
  snapshot_mutual_exclusion (SessionState.mk [⟨0,0⟩] [⟨0,0⟩] false true false)
    rfl rfl rfl (by decide)

/-- C4.  Stop-timeout liveness: when the stop acknowledgement is withheld
forever, `handleStop` is still invoked — by the timeout, exactly at the
bound (2000 ms, or 3000 ms on the memory-constrained iOS platform) — and
it processes the chunk list copied at request time; moreover no
acknowledgement behaviour can delay the invocation past the bound. -/
theorem stop_timeout_liveness (isIOS : Bool) (p : SnapPending) :
    awaitStop isIOS none p = ⟨stopTimeoutMs isIOS, .timeoutFired, p.copy⟩ ∧
    stopTimeoutMs false = 2000 ∧ stopTimeoutMs true = 3000 ∧
    (∀ ackTime, (awaitStop isIOS ackTime p).firedAt ≤ stopTimeoutMs isIOS) := by
  refine ⟨rfl, rfl, rfl, ?_⟩
  intro ackTime
  cases ackTime with
  | none => exact Nat.le_refl _
  | some t =>
      show (if t < stopTimeoutMs isIOS then
              StopWaitResult.mk t .ackEvent p.copy
            else
              StopWaitResult.mk (stopTimeoutMs isIOS) .timeoutFired p.copy).firedAt
          ≤ stopTimeoutMs isIOS
      by_cases h : t < stopTimeoutMs isIOS
      · rw [if_pos h]
        exact Nat.le_of_lt h
      · rw [if_neg h]

/-- C10.  Empty-buffer error contract: a `stopRecording` request on an
active, non-resetting session whose rolling buffer holds zero chunks is
rejected with the distinct empty-buffer error (`'No audio chunks in
buffer'`, part_005 lines 416-422) and leaves the session state unchanged
(no artifact is produced and the pending branch is never reached). -/
theorem empty_buffer_error (s : SessionState)
    (h1 : s.recorderInactive = false) (h2 : s.isRecordingActive = true)
    (h3 : s.isResetting = false) (h4 : s.live = []) :
    stopRequest s = (.rejected .emptyBuffer, s) ∧
    (∀ p, (stopRequest s).1 ≠ .pending p) := by
  have : stopRequest s = (.rejected .emptyBuffer, s) := by
    unfold stopRequest
    rw [h1, h2, h3, h4]
    rfl
  refine ⟨this, ?_⟩
  intro p hp
  rw [this] at hp
  exact StopReqResult.noConfusion hp

/-- Witness for C10 at a concrete input: an active session that has not
yet captured any chunk. -/
theorem empty_buffer_error_witness :
    stopRequest (SessionState.mk [] [] false true false)
      = (.rejected .emptyBuffer, SessionState.mk [] [] false true false) ∧
    (∀ p, (stopRequest (SessionState.mk [] [] false true false)).1 ≠ .pending p) :=
  empty_buffer_error (SessionState.mk [] [] false true false) rfl rfl rfl rfl

/-- The repaired artifact resolved to the `stopRecording` caller
(part_005 lines 465-469): the blob's chunk identifiers plus its MIME
type. -/
structure Artifact where
  blobChunks : List Nat
  mimeType : String
deriving DecidableEq

/-- Errors that `processAudio` can throw (part_005 lines 447-462):
no chunks, empty blob, iOS oversize, or a repair failure. -/
inductive ProcError
  | noChunks
  | emptyBlob
  | oversize
  | repairFailed
deriving DecidableEq

/-- How the `stopRecording` promise settles. -/
inductive Settle
  | resolvedA (a : Artifact)
  | rejectedA (e : ProcError)
deriving DecidableEq

/-- Outcome of `handleStop` (part_005 lines 485-510): how the promise
settles, whether the capturer was actually restarted afterwards, and
whether the capture session (graph, source, stream) was released. -/
structure HandleStopOutcome where
  settled : Settle
  restartRun : Bool
  sessionTornDown : Bool
deriving DecidableEq

/-- The restart guard inside the post-resolve timer (part_005 line 494):
`if (recordingStream && !isResetting) setupMediaRecorder(recordingStream)`.
`isResettingFlag` is the value of `isResetting` when the timer fires. -/
def stopTimerRestart (hasStream isResettingFlag : Bool) : Bool :=
  hasStream && !isResettingFlag

/-- `handleStop` (part_005 lines 485-510).  On processing success the
promise resolves with the artifact and a timer later attempts the guarded
restart; if that restart attempt throws, the error is only logged (the
`try`/`catch` at lines 493-499) — the already-resolved promise is
untouched.  On processing failure the promise rejects with the error,
`isResetting` is cleared, and no restart is attempted.  Neither branch
releases the audio graph, source or stream. -/
def handleStopModel (hasStream isResettingFlag restartThrows : Bool)
    (pr : Settle) : HandleStopOutcome :=
  match pr with
  | .resolvedA a =>
      ⟨.resolvedA a, stopTimerRestart hasStream isResettingFlag && !restartThrows, false⟩
  | .rejectedA e => ⟨.rejectedA e, false, false⟩

/-- C9 counterexample.  When processing of a snapshot fails, the error is
rejected to the caller and the session is not torn down — but capture
does *not* continue afterwards: the failure branch of `handleStop`
(part_005 lines 503-509) never restarts the capturer, so the part of the
claim asserting that capture continues after a processing failure is
false at this concrete input. -/
theorem snapshot_failure_counterexample :
    (handleStopModel true true false (.rejectedA .repairFailed)).settled
        = .rejectedA .repairFailed ∧
    (handleStopModel true true false (.rejectedA .repairFailed)).sessionTornDown = false ∧
    ¬ ((handleStopModel true true false (.rejectedA .repairFailed)).restartRun = true) := by
  decide

/-- C9 as amended.  Snapshot failure semantics: a processing failure is
delivered to the caller as a rejection, the session (graph, source,
stream) is not torn down, but the capturer is not restarted after a
failure — capture only resumes via the success-path restart.  A
successful snapshot resolves with its artifact, and no restart behaviour
(including a restart attempt that throws) ever changes how the promise
settled. -/
theorem snapshot_failure_semantics (hasStream isResettingFlag restartThrows : Bool)
    (e : ProcError) (a : Artifact) :
    (handleStopModel hasStream isResettingFlag restartThrows (.rejectedA e)).settled
        = .rejectedA e ∧
    (handleStopModel hasStream isResettingFlag restartThrows (.rejectedA e)).restartRun
        = false ∧
    (handleStopModel hasStream isResettingFlag restartThrows (.rejectedA e)).sessionTornDown
        = false ∧
    (handleStopModel hasStream isResettingFlag restartThrows (.resolvedA a)).settled
        = .resolvedA a ∧
    (handleStopModel hasStream isResettingFlag restartThrows (.resolvedA a)).sessionTornDown
        = false :=
  ⟨rfl, rfl, rfl, rfl, rfl⟩

/-- Whether `pat` occurs at the start of `s`. -/
def listStartsWith {α : Type} [DecidableEq α] : List α → List α → Bool
  | _, [] => true
  | [], _ :: _ => false
  | a :: as, b :: bs => (decide (a = b)) && listStartsWith as bs

/-- Whether `pat` occurs contiguously anywhere inside `s`. -/
def listHasInfix {α : Type} [DecidableEq α] : List α → List α → Bool
  | [], pat => pat.isEmpty
  | a :: rest, pat => listStartsWith (a :: rest) pat || listHasInfix rest pat

/-- JavaScript's `String.prototype.includes`, used by
`createProperAudioFile` to branch on the MIME type. -/
def strIncludes (s pat : String) : Bool := listHasInfix s.toList pat.toList

/-- The header-prepending repair body shared by the iOS-MP4 and WebM
branches of `createProperAudioFile` (part_005 lines 560 and 580):
`[headerChunk, ...chunks.filter(chunk => chunk !== headerChunk)]`. -/
def headerRepair {α : Type} [DecidableEq α] (chunks : List α) (h : α) : List α :=
  h :: chunks.filter (fun c => c ≠ h)

/-- `createProperAudioFile` (part_005 lines 542-603).  `chunks` is the
snapshot's data-chunk list, `allChunks` the (possibly trimmed)
`recordedChunks` copy.  On iOS with an MP4 MIME type, or for a WebM MIME
type, the first chunk of `allChunks` is taken as the header chunk and
prepended ahead of the snapshot chunks, which are filtered so the header
is never duplicated; with no available header chunk, or for other MIME
types, the snapshot chunks are concatenated as-is (fallback blob). -/
def createProperAudioFile {α : Type} [DecidableEq α] (isIOS : Bool) (mime : String)
    (chunks allChunks : List α) : List α :=
  match allChunks with
  | h :: _ =>
      if isIOS && strIncludes mime "mp4" then headerRepair chunks h
      else if strIncludes mime "webm" then headerRepair chunks h
      else chunks
  | [] => chunks

/-- C5.  Header-preserving repair: in a header-using container branch
(WebM, or MP4 on iOS) with `h` the first recorded chunk, the repair
output is `h` prepended ahead of the snapshot chunks in order; when the
snapshot does not contain the header (it was already evicted) the output
is exactly `h :: chunks`, when the snapshot still starts with the header
the output equals the snapshot unchanged (no duplication), and in every
case the header occurs exactly once in the output. -/
theorem header_preserving_repair (isIOS : Bool) (mime : String) (h : Nat)
    (chunks rest : List Nat)
    (hm : strIncludes mime "webm" = true ∨ (isIOS = true ∧ strIncludes mime "mp4" = true)) :
    (h ∉ chunks → createProperAudioFile isIOS mime chunks (h :: rest) = h :: chunks) ∧
    (∀ cs, chunks = h :: cs → h ∉ cs →
        createProperAudioFile isIOS mime chunks (h :: rest) = chunks) ∧
    (createProperAudioFile isIOS mime chunks (h :: rest)).count h = 1 := by
  have hbranch : createProperAudioFile isIOS mime chunks (h :: rest)
      = headerRepair chunks h := by
    show (if isIOS && strIncludes mime "mp4" then headerRepair chunks h
          else if strIncludes mime "webm" then headerRepair chunks h
          else chunks) = headerRepair chunks h
    by_cases hc : (isIOS && strIncludes mime "mp4") = true
    · rw [if_pos hc]
    · rw [if_neg hc]
      rcases hm with hw | ⟨hi, hmp⟩
      · rw [if_pos hw]
      · exact absurd (by rw [hi, hmp]; rfl) hc
  rw [hbranch]
  unfold headerRepair
  refine ⟨?_, ?_, ?_⟩
  · intro hnot
    have : chunks.filter (fun c => c ≠ h) = chunks := by
      apply List.filter_eq_self.mpr
      intro a ha
      simp only [decide_eq_true_eq]
      intro heq
      exact hnot (heq ▸ ha)
    rw [this]
  · intro cs hcs hnot
    subst hcs
    have hcs' : cs.filter (fun c => c ≠ h) = cs := by
      apply List.filter_eq_self.mpr
      intro a ha
      simp only [decide_eq_true_eq]
      intro heq
      exact hnot (heq ▸ ha)
    simp only [List.filter_cons, decide_not, hcs']
    simp only [decide_eq_true_eq] at hcs' ⊢
    simp [hcs']
    intro a ha heq
    exact hnot (heq ▸ ha)
  · have hz : (chunks.filter (fun c => c ≠ h)).count h = 0 := by
      apply List.count_eq_zero.mpr
      intro hmem
      have := List.of_mem_filter hmem
      simp at this
    simp only [decide_not] at hz
    simp [List.count_cons, hz]

/-- Witness for C5: Scenario D — snapshot `[c2, c3] = [11, 12]` whose
header chunk `h = 10` was already evicted from the window; the repair
output is the concatenation `[10, 11, 12]` with no duplication. -/
theorem header_preserving_repair_witness :
    ((10 : Nat) ∉ [11, 12] →
        createProperAudioFile false "audio/webm" [11, 12] (10 :: [11, 12, 13])
          = 10 :: [11, 12]) ∧
    (∀ cs, [11, 12] = 10 :: cs → (10 : Nat) ∉ cs →
        createProperAudioFile false "audio/webm" [11, 12] (10 :: [11, 12, 13]) = [11, 12]) ∧
    (createProperAudioFile false "audio/webm" [11, 12] (10 :: [11, 12, 13])).count 10 = 1 :=
  header_preserving_repair false "audio/webm" 10 [11, 12] [11, 12, 13]
    (Or.inl (by decide))

/-- As long as at most 1000 chunks have ever been appended, the trim in
`recordedAppend` never fires, so `recordedChunks` is exactly the full
append sequence. -/
theorem recordedAppend_fold_small (n : Nat) (hn : n ≤ 1000) :
    (List.range n).foldl (recordedAppend (α := Nat)) [] = List.range n := by
  induction n with
  | zero => rfl
  | succ m ih =>
      rw [List.range_succ, List.foldl_append, List.foldl_cons, List.foldl_nil,
        ih (Nat.le_of_succ_le hn)]
      unfold recordedAppend
      simp only []
      have hlen : ¬ 1000 < (List.range m ++ [m]).length := by
        rw [List.length_append, List.length_range]
        simp only [List.length_cons, List.length_nil]
        omega
      rw [if_neg hlen]

/-- After 1001 appends the trim has fired once: `recordedChunks` holds
only the last 500 chunks. -/
theorem recordedAppend_fold_1001 :
    (List.range 1001).foldl (recordedAppend (α := Nat)) [] = (List.range 1001).drop 501 := by
  have h1000 : (1001 : Nat) = 1000 + 1 := rfl
  rw [h1000, List.range_succ, List.foldl_append, List.foldl_cons, List.foldl_nil,
    recordedAppend_fold_small 1000 (Nat.le_refl 1000)]
  unfold recordedAppend
  simp only []
  have hlen : 1000 < (List.range 1000 ++ [1000]).length := by
    rw [List.length_append, List.length_range]
    simp only [List.length_cons, List.length_nil]
    omega
  rw [if_pos hlen, ← List.range_succ, List.length_range]

/-- C7 counterexample.  A session appends 1001 chunks (identifiers
0 … 1000, chunk 0 being the session's very first — the header chunk).
The `recordedChunks` trim (part_005 lines 354-359) has spliced off the
front of the array, so Container Repair — which takes `allChunks[0]` as
the header (line 556/577) — now retrieves chunk 501, not the header
chunk 0: the first chunk is no longer retrievable, refuting the claim's
"no matter how many chunks have been appended". -/
theorem header_availability_counterexample :
    (createProperAudioFile false "audio/webm" [999, 1000]
        ((List.range 1001).foldl recordedAppend [])).head? = some 501 ∧
    ¬ ((createProperAudioFile false "audio/webm" [999, 1000]
        ((List.range 1001).foldl recordedAppend [])).head? = some 0) := by
  rw [recordedAppend_fold_1001]
  have hdrop : (List.range 1001).drop 501 = 501 :: (List.range 1001).drop 502 := by
    rw [List.drop_eq_getElem_cons (by rw [List.length_range]; omega)]
    rw [List.getElem_range]
  rw [hdrop]
  constructor
  · rfl
  · intro hcontra
    have : (501 : Nat) = 0 := by
      have h1 : (createProperAudioFile false "audio/webm" [999, 1000]
          (501 :: (List.range 1001).drop 502)).head? = some 501 := rfl
      rw [h1] at hcontra
      exact Option.some.inj hcontra
    exact absurd this (by decide)

/-- C7 as amended.  Header availability up to the trim bound: as long as
the session has appended at most 1000 chunks in total, the very first
chunk ever produced is still `recordedChunks[0]`, so Container Repair
prepends exactly it as the header — even when it has long been evicted
from the rolling window; beyond 1000 appends the front trim of
`recordedChunks` discards it. -/
theorem header_availability_bounded (n : Nat) (snap : List Nat)
    (h1 : 0 < n) (h2 : n ≤ 1000) :
    (createProperAudioFile false "audio/webm" snap
        ((List.range n).foldl recordedAppend [])).head? = some 0 := by
  rw [recordedAppend_fold_small n h2]
  cases n with
  | zero => omega
  | succ m =>
      rw [List.range_succ_eq_map]
      rfl

/-- Witness for the amended C7: three appended chunks, snapshot `[1, 2]`;
the repair output's head is the session's first chunk, 0. -/
theorem header_availability_bounded_witness :
    (createProperAudioFile false "audio/webm" [1, 2]
        ((List.range 3).foldl recordedAppend [])).head? = some 0 :=
  header_availability_bounded 3 [1, 2] (by decide) (by decide)

/-!
The PCM / WAV fallback encoder (`convertToWav` and `createWavHeader`,
`src/src/services/audioService.js` lines 263-340).  Float samples (the
resampled `outputBuffer` contents) are modelled as rationals: the claim
concerns the clamp/scale/truncate algorithm and the exact little-endian
byte layout, both of which are defined over real-valued samples.
`DataView.setInt16`/`setUint32` semantics: the JavaScript number is
truncated toward zero and wrapped modulo 2^16 / 2^32, stored little
endian.
-/

/-- `Math.max(-1, Math.min(1, sample))` (audioService.js line 299). -/
def clampSample (q : ℚ) : ℚ := max (-1) (min 1 q)

/-- `sample < 0 ? sample * 0x8000 : sample * 0x7FFF`
(audioService.js line 300). -/
def scaleSample (q : ℚ) : ℚ := if q < 0 then q * 32768 else q * 32767

/-- JavaScript ToIntegerOrInfinity: truncation toward zero. -/
def jsTruncInt (q : ℚ) : ℤ := if 0 ≤ q then ⌊q⌋ else ⌈q⌉

/-- The int16 value stored for one float sample: clamp, scale, truncate
(audioService.js lines 299-301). -/
def sampleToPcm16 (q : ℚ) : ℤ := jsTruncInt (scaleSample (clampSample q))

/-- The two bytes `setInt16(offset, v, true)` stores: the value wrapped
modulo 2^16, little endian. -/
def int16Bytes (v : ℤ) : List Nat :=
  [(v % 65536).toNat % 256, (v % 65536).toNat / 256]

/-- The two bytes `setUint16(offset, n, true)` stores. -/
def u16le (n : Nat) : List Nat := [n % 256, n / 256 % 256]

/-- The four bytes `setUint32(offset, n, true)` stores. -/
def u32le (n : Nat) : List Nat :=
  [n % 256, n / 256 % 256, n / 65536 % 256, n / 16777216 % 256]

/-- `writeString` (audioService.js lines 336-340): one byte per
character, `charCodeAt` values. -/
def asciiBytes (s : String) : List Nat := s.toList.map Char.toNat

/-- The 44 header bytes written by `createWavHeader`
(audioService.js lines 314-334), in offset order. -/
def wavHeaderFields (numSamples sampleRate numChannels bitsPerSample : Nat) : List Nat :=
  asciiBytes "RIFF"
    ++ u32le (36 + numSamples * numChannels * bitsPerSample / 8)
    ++ asciiBytes "WAVE"
    ++ asciiBytes "fmt "
    ++ u32le 16
    ++ u16le 1
    ++ u16le numChannels
    ++ u32le sampleRate
    ++ u32le (sampleRate * numChannels * bitsPerSample / 8)
    ++ u16le (numChannels * bitsPerSample / 8)
    ++ u16le bitsPerSample
    ++ asciiBytes "data"
    ++ u32le (numSamples * numChannels * bitsPerSample / 8)

/-- `createWavHeader` (audioService.js lines 314-334): a zero-initialised
`ArrayBuffer(44 + dataSize)` whose first 44 bytes are the header
fields. -/
def createWavHeader (numSamples sampleRate numChannels bitsPerSample : Nat) : List Nat :=
  wavHeaderFields numSamples sampleRate numChannels bitsPerSample
    ++ List.replicate (numSamples * numChannels * bitsPerSample / 8) 0

/-- The per-sample int16 little-endian data bytes written from offset 44
(audioService.js lines 297-303). -/
def samplesBytes : List ℚ → List Nat
  | [] => []
  | q :: rest => int16Bytes (sampleToPcm16 q) ++ samplesBytes rest

/-- `convertToWav` (audioService.js lines 263-312), applied to the
resampled mono sample buffer: the header buffer's data region is
overwritten with the encoded samples, giving header bytes followed by
sample bytes.  The fixed parameters are 16000 Hz, mono, 16-bit
(lines 264-266). -/
def convertToWav (samples : List ℚ) : List Nat :=
  (createWavHeader samples.length 16000 1 16).take 44
    ++ samplesBytes samples

/-- Little-endian 16-bit unsigned read at a byte offset. -/
def readU16LE (bs : List Nat) (off : Nat) : Nat :=
  bs.getD off 0 + 256 * bs.getD (off + 1) 0

/-- Little-endian 32-bit unsigned read at a byte offset. -/
def readU32LE (bs : List Nat) (off : Nat) : Nat :=
  bs.getD off 0 + 256 * bs.getD (off + 1) 0 + 65536 * bs.getD (off + 2) 0
    + 16777216 * bs.getD (off + 3) 0

/-- Little-endian 16-bit two's-complement signed read at a byte offset. -/
def readI16LE (bs : List Nat) (off : Nat) : ℤ :=
  if readU16LE bs off < 32768 then (readU16LE bs off : ℤ)
  else (readU16LE bs off : ℤ) - 65536

/-- The header fields occupy exactly 44 bytes. -/
theorem wavHeaderFields_length (numSamples sampleRate numChannels bitsPerSample : Nat) :
    (wavHeaderFields numSamples sampleRate numChannels bitsPerSample).length = 44 := by
  unfold wavHeaderFields asciiBytes u32le u16le
  simp

/-- The sample data region holds two bytes per sample. -/
theorem samplesBytes_length (samples : List ℚ) :
    (samplesBytes samples).length = 2 * samples.length := by
  induction samples with
  | nil => rfl
  | cons q rest ih =>
      unfold samplesBytes int16Bytes
      rw [List.length_append, ih]
      simp only [List.length_cons, List.length_nil]
      omega

/-- A byte lookup past a leading block of known length lands in the
tail. -/
theorem getD_append_shift (l l' : List Nat) (k : Nat) :
    (l ++ l').getD (l.length + k) 0 = l'.getD k 0 := by
  induction l with
  | nil => simp
  | cons a t ih =>
      simp only [List.cons_append, List.length_cons]
      have he : t.length + 1 + k = (t.length + k) + 1 := by omega
      rw [he, List.getD_cons_succ, ih]

/-- The stored int16 value of every encoded sample lies in the signed
16-bit range: clamping bounds the sample in `[-1, 1]`, the scale factors
are `0x8000` for negatives and `0x7FFF` otherwise, and truncation toward
zero never leaves the range. -/
theorem sampleToPcm16_range (q : ℚ) :
    -32768 ≤ sampleToPcm16 q ∧ sampleToPcm16 q ≤ 32767 := by
  unfold sampleToPcm16 jsTruncInt scaleSample clampSample
  set c := max (-1 : ℚ) (min 1 q) with hc
  have hc1 : (-1 : ℚ) ≤ c := le_max_left _ _
  have hc2 : c ≤ 1 := max_le (by norm_num) (min_le_left _ _)
  by_cases hneg : c < 0
  · rw [if_pos hneg]
    have hxneg : c * 32768 < 0 := mul_neg_of_neg_of_pos hneg (by norm_num)
    rw [if_neg (not_le.mpr hxneg)]
    constructor
    · have hlb : (-32768 : ℚ) ≤ c * 32768 := by nlinarith
      have hle := Int.le_ceil (c * 32768)
      have : ((-32768 : ℤ) : ℚ) ≤ (⌈c * 32768⌉ : ℚ) := by
        calc ((-32768 : ℤ) : ℚ) = (-32768 : ℚ) := by norm_num
        _ ≤ c * 32768 := hlb
        _ ≤ (⌈c * 32768⌉ : ℚ) := hle
      exact_mod_cast this
    · have hub : ⌈c * 32768⌉ ≤ 0 := Int.ceil_le.mpr (by exact_mod_cast le_of_lt hxneg)
      omega
  · rw [if_neg hneg]
    have hge : (0 : ℚ) ≤ c := not_lt.mp hneg
    have hx0 : (0 : ℚ) ≤ c * 32767 := mul_nonneg hge (by norm_num)
    rw [if_pos hx0]
    constructor
    · have : (0 : ℤ) ≤ ⌊c * 32767⌋ := Int.le_floor.mpr (by exact_mod_cast hx0)
      omega
    · have hlt : c * 32767 < ((32768 : ℤ) : ℚ) := by push_cast; nlinarith
      have := Int.floor_lt.mpr hlt
      omega

/-- Round trip of the little-endian int16 store/read for values in the
signed 16-bit range: `setInt16` stores `v mod 2^16` little endian, and
the two's-complement read recovers `v`. -/
theorem readI16_decode (v : ℤ) (h1 : -32768 ≤ v) (h2 : v ≤ 32767) :
    (if (v % 65536).toNat % 256 + 256 * ((v % 65536).toNat / 256) < 32768
     then (((v % 65536).toNat % 256 + 256 * ((v % 65536).toNat / 256) : ℕ) : ℤ)
     else (((v % 65536).toNat % 256 + 256 * ((v % 65536).toNat / 256) : ℕ) : ℤ) - 65536)
      = v := by
  have hnn : 0 ≤ v % 65536 := Int.emod_nonneg v (by norm_num)
  have hlt : v % 65536 < 65536 := Int.emod_lt_of_pos v (by norm_num)
  have ht : ((v % 65536).toNat : ℤ) = v % 65536 := Int.toNat_of_nonneg hnn
  have hrt : (v % 65536).toNat % 256 + 256 * ((v % 65536).toNat / 256)
      = (v % 65536).toNat := by omega
  rw [hrt]
  by_cases hcase : (v % 65536).toNat < 32768
  · rw [if_pos hcase]
    omega
  · rw [if_neg hcase]
    omega

/-- The data region byte pair of sample `i` holds exactly the
little-endian bytes of that sample's stored int16 value. -/
theorem samplesBytes_getD (samples : List ℚ) (i : Nat) (hi : i < samples.length) :
    (samplesBytes samples).getD (2 * i) 0
        = (sampleToPcm16 (samples.getD i 0) % 65536).toNat % 256 ∧
    (samplesBytes samples).getD (2 * i + 1) 0
        = (sampleToPcm16 (samples.getD i 0) % 65536).toNat / 256 := by
  induction samples generalizing i with
  | nil => simp at hi
  | cons q rest ih =>
      cases i with
      | zero => exact ⟨rfl, rfl⟩
      | succ j =>
          have hj : j < rest.length := by
            simp only [List.length_cons] at hi
            omega
          have hstep : samplesBytes (q :: rest)
              = (sampleToPcm16 q % 65536).toNat % 256
                :: (sampleToPcm16 q % 65536).toNat / 256
                :: samplesBytes rest := rfl
          have e1 : 2 * (j + 1) = (2 * j + 1) + 1 := by omega
          have e2 : 2 * (j + 1) + 1 = (2 * j + 1 + 1) + 1 := by omega
          constructor
          · rw [hstep, e1, List.getD_cons_succ, List.getD_cons_succ]
            rw [(ih j hj).1]
            rfl
          · rw [hstep, e2, List.getD_cons_succ, List.getD_cons_succ]
            have e3 : 2 * j + 1 + 1 = (2 * j) + 1 + 1 := by omega
            rw [(ih j hj).2]
            rfl

/-- The 44 header bytes written for the fixed parameters 16000 Hz, mono,
16-bit, spelled out in offset order; the two size fields depend on the
sample count `n`. -/
theorem wavHeaderFields_explicit (n : Nat) : wavHeaderFields n 16000 1 16 =
    [82, 73, 70, 70,
     (36 + n * 1 * 16 / 8) % 256, (36 + n * 1 * 16 / 8) / 256 % 256,
     (36 + n * 1 * 16 / 8) / 65536 % 256, (36 + n * 1 * 16 / 8) / 16777216 % 256,
     87, 65, 86, 69,
     102, 109, 116, 32,
     16, 0, 0, 0,
     1, 0,
     1, 0,
     128, 62, 0, 0,
     0, 125, 0, 0,
     2, 0,
     16, 0,
     100, 97, 116, 97,
     n * 1 * 16 / 8 % 256, n * 1 * 16 / 8 / 256 % 256,
     n * 1 * 16 / 8 / 65536 % 256, n * 1 * 16 / 8 / 16777216 % 256] := rfl

/-- The artifact decomposes as header fields followed by sample data:
the 44-byte take of the zero-initialised header buffer is exactly the
field block. -/
theorem convertToWav_decomp (samples : List ℚ) :
    convertToWav samples
      = wavHeaderFields samples.length 16000 1 16 ++ samplesBytes samples := by
  unfold convertToWav createWavHeader
  rw [List.take_left' (wavHeaderFields_length samples.length 16000 1 16)]

/-- Total artifact size: 44 header bytes plus two bytes per sample. -/
theorem convertToWav_length (samples : List ℚ) :
    (convertToWav samples).length = 44 + 2 * samples.length := by
  rw [convertToWav_decomp, List.length_append,
    wavHeaderFields_length samples.length 16000 1 16, samplesBytes_length]

/-- Bytes 0-3 are the "RIFF" tag. -/
theorem convertToWav_riff_tag (samples : List ℚ) :
    (convertToWav samples).take 4 = asciiBytes "RIFF" := by
  rw [convertToWav_decomp, wavHeaderFields_explicit]
  rfl

/-- Bytes 4-7 decode to the RIFF chunk size `36 + dataSize`. -/
theorem convertToWav_riff_size (samples : List ℚ)
    (hb : 36 + 2 * samples.length < 4294967296) :
    readU32LE (convertToWav samples) 4 = 36 + 2 * samples.length := by
  rw [convertToWav_decomp, wavHeaderFields_explicit]
  show (36 + samples.length * 1 * 16 / 8) % 256
      + 256 * ((36 + samples.length * 1 * 16 / 8) / 256 % 256)
      + 65536 * ((36 + samples.length * 1 * 16 / 8) / 65536 % 256)
      + 16777216 * ((36 + samples.length * 1 * 16 / 8) / 16777216 % 256)
      = 36 + 2 * samples.length
  omega

/-- Bytes 8-11 are the "WAVE" tag. -/
theorem convertToWav_wave_tag (samples : List ℚ) :
    ((convertToWav samples).drop 8).take 4 = asciiBytes "WAVE" := by
  rw [convertToWav_decomp, wavHeaderFields_explicit]
  rfl

/-- Bytes 12-15 are the "fmt " tag. -/
theorem convertToWav_fmt_tag (samples : List ℚ) :
    ((convertToWav samples).drop 12).take 4 = asciiBytes "fmt " := by
  rw [convertToWav_decomp, wavHeaderFields_explicit]
  rfl

/-- Bytes 16-19 decode to the fmt chunk size 16. -/
theorem convertToWav_fmt_size (samples : List ℚ) :
    readU32LE (convertToWav samples) 16 = 16 := by
  rw [convertToWav_decomp, wavHeaderFields_explicit]
  rfl

/-- Bytes 20-21 decode to format tag 1 (PCM). -/
theorem convertToWav_format_tag (samples : List ℚ) :
    readU16LE (convertToWav samples) 20 = 1 := by
  rw [convertToWav_decomp, wavHeaderFields_explicit]
  rfl

/-- Bytes 22-23 decode to channel count 1 (mono). -/
theorem convertToWav_channels (samples : List ℚ) :
    readU16LE (convertToWav samples) 22 = 1 := by
  rw [convertToWav_decomp, wavHeaderFields_explicit]
  rfl

/-- Bytes 24-27 decode to the sample rate 16000 Hz. -/
theorem convertToWav_sample_rate (samples : List ℚ) :
    readU32LE (convertToWav samples) 24 = 16000 := by
  rw [convertToWav_decomp, wavHeaderFields_explicit]
  rfl

/-- Bytes 28-31 decode to the byte rate
`sampleRate * numChannels * bitsPerSample / 8`. -/
theorem convertToWav_byte_rate (samples : List ℚ) :
    readU32LE (convertToWav samples) 28 = 16000 * 1 * 16 / 8 := by
  rw [convertToWav_decomp, wavHeaderFields_explicit]
  show (0 : Nat) + 256 * 125 + 65536 * 0 + 16777216 * 0 = 16000 * 1 * 16 / 8
  norm_num

/-- Bytes 32-33 decode to the block align
`numChannels * bitsPerSample / 8`. -/
theorem convertToWav_block_align (samples : List ℚ) :
    readU16LE (convertToWav samples) 32 = 1 * 16 / 8 := by
  rw [convertToWav_decomp, wavHeaderFields_explicit]
  rfl

/-- Bytes 34-35 decode to 16 bits per sample. -/
theorem convertToWav_bits (samples : List ℚ) :
    readU16LE (convertToWav samples) 34 = 16 := by
  rw [convertToWav_decomp, wavHeaderFields_explicit]
  rfl

/-- Bytes 36-39 are the "data" tag. -/
theorem convertToWav_data_tag (samples : List ℚ) :
    ((convertToWav samples).drop 36).take 4 = asciiBytes "data" := by
  rw [convertToWav_decomp, wavHeaderFields_explicit]
  rfl

/-- Bytes 40-43 decode to the data chunk size `numSamples * 2`. -/
theorem convertToWav_data_size (samples : List ℚ)
    (hb : 36 + 2 * samples.length < 4294967296) :
    readU32LE (convertToWav samples) 40 = 2 * samples.length := by
  rw [convertToWav_decomp, wavHeaderFields_explicit]
  show samples.length * 1 * 16 / 8 % 256
      + 256 * (samples.length * 1 * 16 / 8 / 256 % 256)
      + 65536 * (samples.length * 1 * 16 / 8 / 65536 % 256)
      + 16777216 * (samples.length * 1 * 16 / 8 / 16777216 % 256)
      = 2 * samples.length
  omega

/-- The int16 stored at byte offset `44 + 2i` reads back as sample `i`'s
clamp/scale/truncate value. -/
theorem convertToWav_sample_read (samples : List ℚ) (i : Nat) (hi : i < samples.length) :
    readI16LE (convertToWav samples) (44 + 2 * i) = sampleToPcm16 (samples.getD i 0) := by
  rw [convertToWav_decomp]
  have hs1 : (wavHeaderFields samples.length 16000 1 16 ++ samplesBytes samples).getD
      ((wavHeaderFields samples.length 16000 1 16).length + 2 * i) 0
      = (samplesBytes samples).getD (2 * i) 0 := getD_append_shift _ _ _
  have hs2 : (wavHeaderFields samples.length 16000 1 16 ++ samplesBytes samples).getD
      ((wavHeaderFields samples.length 16000 1 16).length + (2 * i + 1)) 0
      = (samplesBytes samples).getD (2 * i + 1) 0 := getD_append_shift _ _ _
  rw [wavHeaderFields_length samples.length 16000 1 16] at hs1 hs2
  have ho : 44 + 2 * i + 1 = 44 + (2 * i + 1) := by omega
  unfold readI16LE readU16LE
  rw [ho, hs1, hs2, (samplesBytes_getD samples i hi).1, (samplesBytes_getD samples i hi).2]
  exact readI16_decode _ (sampleToPcm16_range _).1 (sampleToPcm16_range _).2

/-- C8.  PCM fallback encoding exactness: the WAV artifact is a 44-byte
little-endian RIFF/WAVE header followed by one little-endian int16 per
sample.  The header fields read back as: "RIFF" tag; RIFF-chunk size
`36 + dataSize`; "WAVE" and "fmt " tags; fmt-chunk size 16; format tag 1
(PCM); 1 channel; sample rate 16000; byte rate
`sampleRate * numChannels * bitsPerSample / 8`; block align
`numChannels * bitsPerSample / 8`; 16 bits per sample; "data" tag; and
data size `numSamples * 2`.  Sample `i`'s stored int16 reads back as the
float sample clamped to `[-1, 1]`, scaled by 0x7FFF when nonnegative or
0x8000 when negative, then truncated toward zero. -/
theorem pcm_wav_encoding (samples : List ℚ) (i : Nat)
    (hi : i < samples.length) (hb : 36 + 2 * samples.length < 4294967296) :
    (convertToWav samples).length = 44 + 2 * samples.length ∧
    (convertToWav samples).take 4 = asciiBytes "RIFF" ∧
    readU32LE (convertToWav samples) 4 = 36 + 2 * samples.length ∧
    ((convertToWav samples).drop 8).take 4 = asciiBytes "WAVE" ∧
    ((convertToWav samples).drop 12).take 4 = asciiBytes "fmt " ∧
    readU32LE (convertToWav samples) 16 = 16 ∧
    readU16LE (convertToWav samples) 20 = 1 ∧
    readU16LE (convertToWav samples) 22 = 1 ∧
    readU32LE (convertToWav samples) 24 = 16000 ∧
    readU32LE (convertToWav samples) 28 = 16000 * 1 * 16 / 8 ∧
    readU16LE (convertToWav samples) 32 = 1 * 16 / 8 ∧
    readU16LE (convertToWav samples) 34 = 16 ∧
    ((convertToWav samples).drop 36).take 4 = asciiBytes "data" ∧
    readU32LE (convertToWav samples) 40 = 2 * samples.length ∧
    readI16LE (convertToWav samples) (44 + 2 * i) = sampleToPcm16 (samples.getD i 0) ∧
    sampleToPcm16 (samples.getD i 0)
      = jsTruncInt (scaleSample (clampSample (samples.getD i 0))) :=
  ⟨convertToWav_length samples, convertToWav_riff_tag samples,
   convertToWav_riff_size samples hb, convertToWav_wave_tag samples,
   convertToWav_fmt_tag samples, convertToWav_fmt_size samples,
   convertToWav_format_tag samples, convertToWav_channels samples,
   convertToWav_sample_rate samples, convertToWav_byte_rate samples,
   convertToWav_block_align samples, convertToWav_bits samples,
   convertToWav_data_tag samples, convertToWav_data_size samples hb,
   convertToWav_sample_read samples i hi, rfl⟩

/-- Witness for C8 at a concrete input: the two-sample buffer
`[1/2, -1/2]`, sample index 0. -/
theorem pcm_wav_encoding_witness :
    (convertToWav [1/2, -1/2]).length = 44 + 2 * ([1/2, -1/2] : List ℚ).length ∧
    (convertToWav [1/2, -1/2]).take 4 = asciiBytes "RIFF" ∧
    readU32LE (convertToWav [1/2, -1/2]) 4 = 36 + 2 * ([1/2, -1/2] : List ℚ).length ∧
    ((convertToWav [1/2, -1/2]).drop 8).take 4 = asciiBytes "WAVE" ∧
    ((convertToWav [1/2, -1/2]).drop 12).take 4 = asciiBytes "fmt " ∧
    readU32LE (convertToWav [1/2, -1/2]) 16 = 16 ∧
    readU16LE (convertToWav [1/2, -1/2]) 20 = 1 ∧
    readU16LE (convertToWav [1/2, -1/2]) 22 = 1 ∧
    readU32LE (convertToWav [1/2, -1/2]) 24 = 16000 ∧
    readU32LE (convertToWav [1/2, -1/2]) 28 = 16000 * 1 * 16 / 8 ∧
    readU16LE (convertToWav [1/2, -1/2]) 32 = 1 * 16 / 8 ∧
    readU16LE (convertToWav [1/2, -1/2]) 34 = 16 ∧
    ((convertToWav [1/2, -1/2]).drop 36).take 4 = asciiBytes "data" ∧
    readU32LE (convertToWav [1/2, -1/2]) 40 = 2 * ([1/2, -1/2] : List ℚ).length ∧
    readI16LE (convertToWav [1/2, -1/2]) (44 + 2 * 0)
      = sampleToPcm16 (([1/2, -1/2] : List ℚ).getD 0 0) ∧
    sampleToPcm16 (([1/2, -1/2] : List ℚ).getD 0 0)
      = jsTruncInt (scaleSample (clampSample (([1/2, -1/2] : List ℚ).getD 0 0))) :=
  pcm_wav_encoding [1/2, -1/2] 0 (by decide) (by norm_num)
